import Mathlib

/-! Verification of the core pure logic of the downloader script
`src/yt_downloder.py`: byte-size formatting, metadata resolution,
format-listing parsing, percent-based progress estimation, filename
sanitization, and the per-workflow total-size and naming computations.

Python semantics are shallowly embedded:

* Python floats are modelled by exact rationals.  All concrete inputs used
  in counterexamples and witnesses below are dyadic values on which binary
  floating point and exact rational arithmetic agree, so the modelled
  results match CPython there.
* Python regular expressions are embedded as specialised matchers that
  reproduce the leftmost search order and greedy-with-backtracking
  alternative order of the exact patterns appearing in the source.
* The character classes used by Python (Unicode `isalnum`, word and space
  classes) are modelled by explicit predicates; `pyIsAlnum` covers the
  character ranges exercised here (ASCII alphanumerics plus several
  non-ASCII letter blocks), and the sanitizer theorems below do not depend
  on the exact extension of the predicate.
* Fallible Python operations (the `ValueError` of `int` and `float`,
  uncaught exceptions) are modelled with explicit result types.
-/

set_option maxRecDepth 4000

/-! ## Character classes (models of the Python classes) -/

/-- Model of the Python regex class `\s` (ASCII whitespace; the non-ASCII
Unicode space characters are not used by any input considered here). -/
def pyIsSpace (c : Char) : Bool :=
  c == ' ' || c == '\t' || c == '\n' || c == '\r' || c.toNat == 11 || c.toNat == 12

/-- Model of Python `str.isalnum` on the character ranges exercised in this
development: ASCII letters and digits, Latin-1 and Latin Extended letters,
Greek, Cyrillic, kana, CJK ideographs and hangul syllables.  Python's full
Unicode table is larger; the sanitizer theorems below hold for any
extension of this predicate. -/
def pyIsAlnum (c : Char) : Bool :=
  c.isAlpha || c.isDigit ||
  (0xC0 ≤ c.toNat && c.toNat ≤ 0x24F && c.toNat != 0xD7 && c.toNat != 0xF7) ||
  (0x391 ≤ c.toNat && c.toNat ≤ 0x3A9 && c.toNat != 0x3A2) ||
  (0x3B1 ≤ c.toNat && c.toNat ≤ 0x3C9) ||
  (0x410 ≤ c.toNat && c.toNat ≤ 0x44F) ||
  (0x3041 ≤ c.toNat && c.toNat ≤ 0x3096) ||
  (0x30A1 ≤ c.toNat && c.toNat ≤ 0x30FA) ||
  (0x4E00 ≤ c.toNat && c.toNat ≤ 0x9FFF) ||
  (0xAC00 ≤ c.toNat && c.toNat ≤ 0xD7A3)

/-- Model of the Python regex class `\w` (alphanumeric or underscore). -/
def pyIsWord (c : Char) : Bool :=
  pyIsAlnum c || c == '_'

/-- Negation of `pyIsSpace`, the regex class `\S`. -/
def notSpaceChar (c : Char) : Bool :=
  !(pyIsSpace c)

/-! ## Small string utilities (models of Python string methods) -/

/-- Characters of a string with surrounding whitespace removed, as Python
`str.strip()` does. -/
def pyStripList (cs : List Char) : List Char :=
  ((cs.dropWhile pyIsSpace).reverse.dropWhile pyIsSpace).reverse

/-- Model of Python `str.strip()`. -/
def pyStrip (s : String) : String :=
  String.mk (pyStripList s.data)

/-- Split a character list at every occurrence of `sep`, keeping empty
pieces, as Python `str.split(sep)` does for a one-character separator. -/
def splitCharAux (sep : Char) : List Char → List Char → List (List Char)
  | [], acc => [acc.reverse]
  | c :: cs, acc =>
    if c == sep then acc.reverse :: splitCharAux sep cs []
    else splitCharAux sep cs (c :: acc)

/-- Model of Python `s.split("\n")`. -/
def splitLines (s : String) : List String :=
  (splitCharAux '\n' s.data []).map String.mk

/-- Model of Python `s.split()[0]`: the first maximal non-whitespace run of
`s`; `none` models the `IndexError` raised when `s` has no such run. -/
def firstWsToken (s : String) : Option String :=
  let t := (s.data.dropWhile pyIsSpace).takeWhile notSpaceChar
  if t.isEmpty then none else some (String.mk t)

/-- Model of Python `s.startswith(p)`. -/
def pyStartsWith (s pat : String) : Bool :=
  pat.data.isPrefixOf s.data

/-- Containment of one character list in another. -/
def listIsInfix (pat : List Char) : List Char → Bool
  | [] => pat.isEmpty
  | c :: cs => pat.isPrefixOf (c :: cs) || listIsInfix pat cs

/-- Model of the Python substring test `p in s`. -/
def strContains (s pat : String) : Bool :=
  listIsInfix pat.data s.data

/-- Model of `os.path.join` for the non-absolute second components used by
the script (POSIX behaviour). -/
def joinPath (a b : String) : String :=
  a ++ "/" ++ b

/-- Numeric value of a list of ASCII digits. -/
def natOfDigits (ds : List Char) : ℕ :=
  ds.foldl (fun a c => 10 * a + (c.toNat - 48)) 0

/-- Decimal digits of a natural number (fuelled, fuel larger than the
number of digits). -/
def natToStrAux : ℕ → ℕ → List Char
  | 0, _ => []
  | fuel + 1, n =>
    if n < 10 then [Nat.digitChar n]
    else natToStrAux fuel (n / 10) ++ [Nat.digitChar (n % 10)]

/-- Decimal rendering of a natural number. -/
def natToStr (n : ℕ) : String :=
  String.mk (natToStrAux (n + 1) n)

/-- Two-digit zero-padded rendering, for the cent part of a fixed-point
number. -/
def padTwo (n : ℕ) : String :=
  if n < 10 then "0" ++ natToStr n else natToStr n

/-- Zero-padded decimal rendering to width `w`. -/
def padNat (w n : ℕ) : String :=
  String.mk (List.replicate (w - (natToStr n).length) '0') ++ natToStr n

/-! ## Fallible numeric conversions -/

/-- Result of a fallible Python conversion: either its value or the raised
`ValueError`. -/
inductive PyResult (α : Type) where
  | ok : α → PyResult α
  | valueError : PyResult α
  deriving DecidableEq

/-- Integer value of an all-digit character list, `valueError` otherwise. -/
def digitsVal (ds : List Char) : PyResult ℤ :=
  if !ds.isEmpty && ds.all Char.isDigit then PyResult.ok (natOfDigits ds)
  else PyResult.valueError

/-- Model of Python `int` applied to a string: surrounding whitespace, an
optional sign, and one or more ASCII digits.  (Underscore grouping and
non-ASCII digits, which no input here uses, are out of the model.) -/
def pyInt (s : String) : PyResult ℤ :=
  match pyStripList s.data with
  | '+' :: ds => digitsVal ds
  | '-' :: ds =>
    match digitsVal ds with
    | PyResult.ok n => PyResult.ok (-n)
    | PyResult.valueError => PyResult.valueError
  | ds => digitsVal ds

/-- Value of an unsigned decimal numeral with optional fractional part,
`valueError` on any other shape. -/
def pyFloatBody (cs : List Char) : PyResult ℚ :=
  let ip := cs.takeWhile Char.isDigit
  match cs.dropWhile Char.isDigit with
  | [] => if ip.isEmpty then PyResult.valueError else PyResult.ok (natOfDigits ip)
  | '.' :: fs =>
    if (!ip.isEmpty || !fs.isEmpty) && fs.all Char.isDigit then
      PyResult.ok ((natOfDigits ip : ℚ) + (natOfDigits fs : ℚ) / 10 ^ fs.length)
    else PyResult.valueError
  | _ => PyResult.valueError

/-- Model of Python `float` applied to a string (decimal numerals with an
optional sign and fractional part; exponent and special forms, which no
input here uses, are out of the model).  The float value is idealised as
the exact rational. -/
def pyFloat (s : String) : PyResult ℚ :=
  match pyStripList s.data with
  | '+' :: ds => pyFloatBody ds
  | '-' :: ds =>
    match pyFloatBody ds with
    | PyResult.ok q => PyResult.ok (-q)
    | PyResult.valueError => PyResult.valueError
  | ds => pyFloatBody ds

/-- Model of Python `int` applied to a float value: truncation toward
zero. -/
def pyTrunc (q : ℚ) : ℤ :=
  if q < 0 then -(⌊-q⌋) else ⌊q⌋

/-- Round-half-to-even on rationals, the rounding used by Python float
formatting. -/
def roundHalfEven (q : ℚ) : ℤ :=
  if q - ⌊q⌋ < 1 / 2 then ⌊q⌋
  else if (1 : ℚ) / 2 < q - ⌊q⌋ then ⌊q⌋ + 1
  else if ⌊q⌋ % 2 = 0 then ⌊q⌋ else ⌊q⌋ + 1

/-! ## format_file_size (src/yt_downloder.py lines 13-23) -/

/-- Unit list of `format_file_size`. -/
def unitNames : List String :=
  ["B", "KB", "MB", "GB", "TB"]

/-- Loop of `format_file_size`: return the first unit at which the running
value is below 1024, dividing by 1024 otherwise; `none` models falling off
the end of the unit list. -/
def ffsLoop : ℚ → List String → Option (ℚ × String)
  | _, [] => none
  | q, u :: us => if q < 1024 then some (q, u) else ffsLoop (q / 1024) us

/-- Fixed-point rendering of a number of hundredths, as Python
two-decimal float formatting produces. -/
def renderCents (c : ℤ) : String :=
  (if c < 0 then "-" else "") ++ natToStr (c.natAbs / 100) ++ "." ++ padTwo (c.natAbs % 100)

/-- Scaled value of `format_file_size` before rendering: the number of
hundredths (after round-half-even, as the two-decimal format applies) and
the chosen unit. -/
def format_file_size_parts (n : ℤ) : Option (ℤ × String) :=
  (ffsLoop (n : ℚ) unitNames).map (fun p => (roundHalfEven (p.1 * 100), p.2))

/-- Model of `format_file_size` (lines 13-23).  Its argument is the result
of the initial `int(size_in_bytes)` conversion: the `valueError` case is
the except-branch returning the sentinel, and the fall-through after the
unit loop also returns the sentinel. -/
def format_file_size (v : PyResult ℤ) : String :=
  match v with
  | PyResult.valueError => "Unknown Size"
  | PyResult.ok n =>
    match format_file_size_parts n with
    | some (c, u) => renderCents c ++ " " ++ u
    | none => "Unknown Size"

/-- Smallest unit index `k` with `b < 1024 ^ (k + 1)`, as the specification
words the unit-selection rule (for comparison with the code's loop). -/
def leastUnitIndex (b : ℕ) : ℕ :=
  if b < 1024 then 0
  else if b < 1024 ^ 2 then 1
  else if b < 1024 ^ 3 then 2
  else if b < 1024 ^ 4 then 3
  else 4

/-! ## sanitize_filename (lines 95-97) -/

/-- Per-character map of `sanitize_filename`: keep the character when it is
alphanumeric or one of space, underscore, hyphen; replace it with an
underscore otherwise. -/
def sanitizeChar (c : Char) : Char :=
  if pyIsAlnum c || c == ' ' || c == '_' || c == '-' then c else '_'

/-- Model of `sanitize_filename` (lines 95-97); the character comprehension
at line 143 of `download_and_merge` is this same map, written inline. -/
def sanitize_filename (title : String) : String :=
  String.mk (title.data.map sanitizeChar)

/-! ## get_video_info (lines 26-50) -/

/-- Fields of the parsed JSON metadata object that `get_video_info`
consults, each `none` when the key is absent.  The size field carries the
outcome of the later `int` conversion inside `format_file_size`. -/
structure RawInfo where
  title : Option String
  duration_string : Option String
  filesize_approx : Option (PyResult ℤ)
  upload_date : Option String
  resolution : Option String
  deriving DecidableEq

/-- Metadata dictionary built by `get_video_info` on success. -/
structure Metadata where
  title : String
  duration : String
  filesize : String
  upload_date : String
  resolution : String
  deriving DecidableEq

/-- Outcome of `get_video_info`: `noInfo` models the `return None` paths,
`raised` models an uncaught exception escaping the function. -/
inductive InfoResult where
  | noInfo : InfoResult
  | raised : InfoResult
  | ok : Metadata → InfoResult
  deriving DecidableEq

/-- Gregorian leap-year test. -/
def pyIsLeapYear (y : ℕ) : Bool :=
  y % 4 == 0 && (y % 100 != 0 || y % 400 == 0)

/-- Length of a month, as `datetime` validates it. -/
def daysInMonth (y m : ℕ) : ℕ :=
  if m = 2 then (if pyIsLeapYear y then 29 else 28)
  else if m = 4 ∨ m = 6 ∨ m = 9 ∨ m = 11 then 30
  else 31

/-- Month alternatives of the CPython strptime pattern for `%m`, in the
engine's preference order. -/
def monthCands (cs : List Char) : List (ℕ × List Char) :=
  (match cs with
   | '1' :: c :: r => if '0' ≤ c ∧ c ≤ '2' then [(10 + (c.toNat - 48), r)] else []
   | _ => []) ++
  (match cs with
   | '0' :: c :: r => if '1' ≤ c ∧ c ≤ '9' then [(c.toNat - 48, r)] else []
   | _ => []) ++
  (match cs with
   | c :: r => if '1' ≤ c ∧ c ≤ '9' then [(c.toNat - 48, r)] else []
   | _ => [])

/-- Day alternatives of the CPython strptime pattern for `%d`, in the
engine's preference order. -/
def dayCands (cs : List Char) : List (ℕ × List Char) :=
  (match cs with
   | '3' :: c :: r => if c = '0' ∨ c = '1' then [(30 + (c.toNat - 48), r)] else []
   | _ => []) ++
  (match cs with
   | c :: d :: r =>
     if (c = '1' ∨ c = '2') ∧ d.isDigit then
       [(10 * (c.toNat - 48) + (d.toNat - 48), r)]
     else []
   | _ => []) ++
  (match cs with
   | '0' :: c :: r => if '1' ≤ c ∧ c ≤ '9' then [(c.toNat - 48, r)] else []
   | _ => []) ++
  (match cs with
   | c :: r => if '1' ≤ c ∧ c ≤ '9' then [(c.toNat - 48, r)] else []
   | _ => [])

/-- Model of `datetime.strptime(s, "%Y%m%d")`: four year digits, then the
month and day alternatives with backtracking, the whole string consumed,
and the resulting calendar date valid; `none` models the raised
`ValueError`. -/
def pyStrptimeYmd (s : String) : Option (ℕ × ℕ × ℕ) :=
  let cs := s.data
  if (cs.take 4).length = 4 ∧ (cs.take 4).all Char.isDigit then
    match (monthCands (cs.drop 4)).findSome? (fun mc =>
      (dayCands mc.2).findSome? (fun dc =>
        if dc.2 = [] then some (mc.1, dc.1) else none)) with
    | some (m, d) =>
      let y := natOfDigits (cs.take 4)
      if 1 ≤ y ∧ d ≤ daysInMonth y m then some (y, m, d) else none
    | none => none
  else none

/-- Model of `.strftime("%Y-%m-%d")` on a parsed date. -/
def formatYmd (d : ℕ × ℕ × ℕ) : String :=
  padNat 4 d.1 ++ "-" ++ padNat 2 d.2.1 ++ "-" ++ padNat 2 d.2.2

/-- Model of `get_video_info` (lines 26-50).  `returncode` is the tool's
exit status; `parsed` is `none` when `json.loads` fails and otherwise the
fields of the parsed object.  A present `upload_date` goes through
`strptime`, whose failure is an uncaught exception (`raised`); every other
absent field falls back to its sentinel via `dict.get`. -/
def get_video_info (returncode : ℤ) (parsed : Option RawInfo) : InfoResult :=
  if returncode ≠ 0 then InfoResult.noInfo
  else
    match parsed with
    | none => InfoResult.noInfo
    | some info =>
      match info.upload_date with
      | some s =>
        match pyStrptimeYmd s with
        | none => InfoResult.raised
        | some d =>
          InfoResult.ok
            { title := info.title.getD "Unknown Title"
              duration := info.duration_string.getD "Unknown Duration"
              filesize := format_file_size (info.filesize_approx.getD (PyResult.ok 0))
              upload_date := formatYmd d
              resolution := info.resolution.getD "Unknown" }
      | none =>
        InfoResult.ok
          { title := info.title.getD "Unknown Title"
            duration := info.duration_string.getD "Unknown Duration"
            filesize := format_file_size (info.filesize_approx.getD (PyResult.ok 0))
            upload_date := "Unknown Date"
            resolution := info.resolution.getD "Unknown" }

/-! ## get_video_formats (lines 53-73): the format-line pattern

The pattern at line 68 is, in order: a leading digit group, whitespace, a
non-whitespace extension token, whitespace, then an optional
word-characters-with-optional-x group (resolution), optional whitespace,
an optional digits-fps group, optional whitespace, an optional approximate
size group, optional whitespace, and a non-empty free-text remainder.
The matcher below reproduces the engine's leftmost-greedy backtracking
order: every quantifier's alternatives are generated longest first, and
the nested search takes the first overall success, the deepest choice
point varying fastest. -/

/-- All splits of `cs` into a run of `p`-characters and the rest, longest
run first, runs shorter than `minLen` excluded. -/
def prefixesDesc (p : Char → Bool) (minLen : ℕ) (cs : List Char) : List (List Char × List Char) :=
  let n := (cs.takeWhile p).length
  (List.range (n + 1 - minLen)).map (fun i => (cs.take (n - i), cs.drop (n - i)))

/-- Alternatives of the optional resolution group (word characters, then
optionally an `x` and more word characters), in preference order, ending
with the group skipped. -/
def candA (cs : List Char) : List (Option (List Char) × List Char) :=
  ((prefixesDesc pyIsWord 1 cs).flatMap (fun pr =>
    (match pr.2 with
     | 'x' :: r2 =>
       (prefixesDesc pyIsWord 1 r2).map (fun pr2 => (some (pr.1 ++ 'x' :: pr2.1), pr2.2))
     | _ => []) ++ [(some pr.1, pr.2)])) ++ [(none, cs)]

/-- Alternatives of the optional frame-rate group (digits then the literal
fps), in preference order, ending with the group skipped. -/
def candB (cs : List Char) : List (Option (List Char) × List Char) :=
  ((prefixesDesc Char.isDigit 1 cs).filterMap (fun pr =>
    match pr.2 with
    | 'f' :: 'p' :: 's' :: rest => some (some (pr.1 ++ ['f', 'p', 's']), rest)
    | _ => none)) ++ [(none, cs)]

/-- Alternatives of the size body (digits, a dot, digits, one of K M G,
then the literal iB), in preference order. -/
def candSizeCore (cs : List Char) : List (List Char × List Char) :=
  (prefixesDesc Char.isDigit 1 cs).flatMap (fun pr =>
    match pr.2 with
    | '.' :: r2 =>
      (prefixesDesc Char.isDigit 1 r2).filterMap (fun pr2 =>
        match pr2.2 with
        | u :: 'i' :: 'B' :: rest =>
          if u = 'K' ∨ u = 'M' ∨ u = 'G' then
            some (pr.1 ++ '.' :: pr2.1 ++ [u, 'i', 'B'], rest)
          else none
        | _ => none)
    | _ => [])

/-- Alternatives of the optional size group (optional tilde then the size
body), in preference order, ending with the group skipped. -/
def candC (cs : List Char) : List (Option (List Char) × List Char) :=
  (match cs with
   | '~' :: r => (candSizeCore r).map (fun pr => (some ('~' :: pr.1), pr.2))
   | _ => []) ++
  (candSizeCore cs).map (fun pr => (some pr.1, pr.2)) ++ [(none, cs)]

/-- Backtracking search over the tail of the format-line pattern, starting
at the whitespace that follows the extension token: whitespace, the three
optional groups with optional whitespace between them, and a non-empty
remainder (the dot class stops at a newline). -/
def matchRTail (cs : List Char) : Option (Option String × Option String × Option String × String) :=
  (prefixesDesc pyIsSpace 1 cs).findSome? (fun w1 =>
    (candA w1.2).findSome? (fun a =>
      (prefixesDesc pyIsSpace 0 a.2).findSome? (fun s2 =>
        (candB s2.2).findSome? (fun b =>
          (prefixesDesc pyIsSpace 0 b.2).findSome? (fun s3 =>
            (candC s3.2).findSome? (fun c =>
              (prefixesDesc pyIsSpace 0 c.2).findSome? (fun s4 =>
                match s4.2.takeWhile (fun ch => ch != '\n') with
                | [] => none
                | d => some (a.1.map String.mk, b.1.map String.mk, c.1.map String.mk,
                             String.mk d))))))))

/-- One parsed row of the format table (the groups of the line-68
pattern). -/
structure FormatRecord where
  format_id : String
  ext : String
  resolution : Option String
  fps : Option String
  size : Option String
  desc : String
  deriving DecidableEq

/-- Model of `re.match` with the line-68 pattern on one line: the greedy
digit group and the two deterministic whitespace / extension runs, then
the backtracking tail. -/
def matchFormatLine (line : String) : Option FormatRecord :=
  if (line.data.takeWhile Char.isDigit).isEmpty then none
  else if ((line.data.dropWhile Char.isDigit).takeWhile pyIsSpace).isEmpty then none
  else if (((line.data.dropWhile Char.isDigit).dropWhile pyIsSpace).takeWhile notSpaceChar).isEmpty then none
  else
    (matchRTail (((line.data.dropWhile Char.isDigit).dropWhile pyIsSpace).dropWhile notSpaceChar)).map
      (fun g =>
        { format_id := String.mk (line.data.takeWhile Char.isDigit)
          ext := String.mk (((line.data.dropWhile Char.isDigit).dropWhile pyIsSpace).takeWhile notSpaceChar)
          resolution := g.1
          fps := g.2.1
          size := g.2.2.1
          desc := g.2.2.2 })

/-- Longest run of leading ASCII digits of a line, the "leading integer"
of a format row. -/
def leadingIntStr (l : String) : String :=
  String.mk (l.data.takeWhile Char.isDigit)

/-- Rows that `get_video_formats` (lines 66-71) parses and renders: the
first three lines are discarded as header, every remaining line matching
the pattern contributes one record in order, and non-matching lines are
skipped. -/
def parse_format_lines (lines : List String) : List FormatRecord :=
  (lines.drop 3).filterMap matchFormatLine

/-- The record sequence of `get_video_formats` applied to the raw tool
output (which the code first strips and splits on newlines). -/
def get_video_formats_records (stdout : String) : List FormatRecord :=
  parse_format_lines (splitLines (pyStrip stdout))

/-! ## download_with_progress (lines 76-92): the percent pattern -/

/-- Try the percent pattern at the head of `cs` with exactly `k` leading
digits: digits, an optional dot-digits fraction (preferred when present),
then a percent sign; returns the matched first group. -/
def tryPercentK (k : ℕ) (cs : List Char) : Option (List Char) :=
  let ds := cs.take k
  if ds.length = k ∧ ds.all Char.isDigit then
    (match cs.drop k with
     | '.' :: r2 =>
       let fs := r2.takeWhile Char.isDigit
       if fs.isEmpty then none
       else
         match r2.drop fs.length with
         | '%' :: _ => some (ds ++ '.' :: fs)
         | _ => none
     | _ => none) <|>
    (match cs.drop k with
     | '%' :: _ => some ds
     | _ => none)
  else none

/-- Try the percent pattern at the head of `cs`, longest digit group
first (the one-to-three repetition is greedy). -/
def tryPercentAt (cs : List Char) : Option (List Char) :=
  tryPercentK 3 cs <|> tryPercentK 2 cs <|> tryPercentK 1 cs

/-- Model of `re.search` with the percent pattern of line 83: first
position, in left-to-right order, at which the pattern matches; returns
the matched first group. -/
def searchPercentG : List Char → Option (List Char)
  | [] => none
  | c :: cs => tryPercentAt (c :: cs) <|> searchPercentG cs

/-- Value of `float` on a matched percent group (digits with an optional
fraction). -/
def percentVal (g : List Char) : ℚ :=
  match g.dropWhile Char.isDigit with
  | '.' :: fs =>
    (natOfDigits (g.takeWhile Char.isDigit) : ℚ) + (natOfDigits fs : ℚ) / 10 ^ fs.length
  | _ => (natOfDigits (g.takeWhile Char.isDigit) : ℚ)

/-- Percent value found in one output line, when any. -/
def searchPercent (cs : List Char) : Option ℚ :=
  (searchPercentG cs).map percentVal

/-- Model of the reading loop of `download_with_progress` (lines 81-88):
the stream of deltas handed to the progress bar.  On each line with a
percent match the new byte count is the truncation of
percent over one hundred times the total, the delta against the previous
count is emitted, and the count is updated; other lines emit nothing. -/
def download_with_progress (total : ℕ) : ℤ → List String → List ℤ
  | _, [] => []
  | downloaded, line :: rest =>
    match searchPercent line.data with
    | none => download_with_progress total downloaded rest
    | some p =>
      (pyTrunc (p / 100 * total) - downloaded) ::
        download_with_progress total (pyTrunc (p / 100 * total)) rest

/-- Percent values matched across a list of output lines, in order. -/
def percentsOf (lines : List String) : List ℚ :=
  lines.filterMap (fun l => searchPercent l.data)

/-! ## Workflow orchestration (lines 100-175) -/

/-- Path of the external tool (line 8). -/
def YT_DLP_PATH : String :=
  "yt-dlp"

/-- Model of the download directory (line 9), with the home directory as a
parameter. -/
def downloadDir (home : String) : String :=
  joinPath (joinPath home "Downloads") "Youtube Downloads"

/-- Total-size computation of `download_video` (line 106) and
`download_audio` (line 129): zero for the unknown-size sentinel, otherwise
`int` applied to the first whitespace-token of the size string, whose
`ValueError` is not caught.  `valueError` also stands for the `IndexError`
of indexing an empty split (unreachable for the strings
`format_file_size` produces). -/
def video_total_size (filesize : String) : PyResult ℤ :=
  if filesize = "Unknown Size" then PyResult.ok 0
  else
    match firstWsToken filesize with
    | none => PyResult.valueError
    | some t => pyInt t

/-- Total-size computation of `download_and_merge` (lines 158-162): when
the size string contains MB, the first token times 1024 squared; when it
contains GB, times 1024 cubed; otherwise zero; a `ValueError` from `float`
is caught and yields zero.  `valueError` stands only for the uncaught
`IndexError` of an all-whitespace string (unreachable here). -/
def merge_total_size (filesize : String) : PyResult ℚ :=
  if strContains filesize "MB" then
    match firstWsToken filesize with
    | none => PyResult.valueError
    | some t =>
      match pyFloat t with
      | PyResult.ok x => PyResult.ok (x * 1024 * 1024)
      | PyResult.valueError => PyResult.ok 0
  else if strContains filesize "GB" then
    match firstWsToken filesize with
    | none => PyResult.valueError
    | some t =>
      match pyFloat t with
      | PyResult.ok x => PyResult.ok (x * 1024 * 1024 * 1024)
      | PyResult.valueError => PyResult.ok 0
  else PyResult.ok 0

/-- Observable plan of `download_video` (lines 100-120): the initial
output path, the command handed to the process runner, the rename
performed on success (`none` on failure, where the partial file is left in
place), and the banner printed. -/
structure VideoDownloadPlan where
  video_output : String
  command : List String
  rename : Option (String × String)
  message : String
  deriving DecidableEq

/-- Model of `download_video` (lines 100-120), with the metadata fields it
reads (title, resolution) and the exit code of the download process as
parameters. -/
def download_video (home title resolution format_id url : String) (exitCode : ℤ) :
    VideoDownloadPlan :=
  let safe_title := sanitize_filename title
  let video_output := joinPath (downloadDir home) (safe_title ++ ".mp4")
  let command := [YT_DLP_PATH, "-f", format_id, "-o", video_output, url,
                  "--embed-subs", "--sub-lang", "en"]
  if exitCode = 0 then
    { video_output := video_output
      command := command
      rename := some (video_output,
        joinPath (downloadDir home) (safe_title ++ "_" ++ resolution ++ ".mp4"))
      message := "\n✅ Video downloaded successfully as:\n" ++ safe_title ++ "_" ++ resolution ++ ".mp4" }
  else
    { video_output := video_output
      command := command
      rename := none
      message := "\n❌ Video download failed." }

/-- Try the resolution pattern of line 150 (three or four digits, an x,
three or four digits) at the head of `cs`, with the greedy four-digit
alternative first. -/
def tryResK (k : ℕ) (cs : List Char) : Option String :=
  let d1 := cs.take k
  if d1.length = k ∧ d1.all Char.isDigit then
    match cs.drop k with
    | 'x' :: r2 =>
      let run := r2.takeWhile Char.isDigit
      if 4 ≤ run.length then some (String.mk (d1 ++ 'x' :: run.take 4))
      else if 3 ≤ run.length then some (String.mk (d1 ++ 'x' :: run.take 3))
      else none
    | _ => none
  else none

/-- Both digit-group widths at one position, wider first. -/
def tryResAt (cs : List Char) : Option String :=
  tryResK 4 cs <|> tryResK 3 cs

/-- Model of `re.search` with the resolution pattern on one line. -/
def searchResAux : List Char → Option String
  | [] => none
  | c :: cs => tryResAt (c :: cs) <|> searchResAux cs

/-- First resolution token of a line, when any. -/
def searchRes (l : String) : Option String :=
  searchResAux l.data

/-- Per-line update of the resolution scan of `download_and_merge` (lines
147-152): a line contributes when it starts with the chosen format-id
string and contains a resolution token. -/
def mergePick (fid : String) (l : String) : Option String :=
  if pyStartsWith l fid then searchRes l else none

/-- Model of the resolution scan of `download_and_merge` (lines 146-152):
fold over all raw output lines, each contributing line overwriting the
accumulator, starting from the sentinel. -/
def mergeResolution (stdout fid : String) : String :=
  (splitLines stdout).foldl (fun acc l => (mergePick fid l).getD acc) "UnknownRes"

/-- Resolution lookup as the specification words it: the resolution token
of the row whose format id equals the chosen id. -/
def specRowResolution (stdout fid : String) : Option String :=
  ((splitLines stdout).find? (fun l => leadingIntStr l == fid)).bind searchRes

/-- Model of the command construction of `download_and_merge` (lines
143-167): the output name, carrying the sanitized title and scanned
resolution, is part of the command handed to the process runner. -/
def download_and_merge_command (home url title stdout vid aid : String) : List String :=
  let safe_title := sanitize_filename title
  let resolution := mergeResolution stdout vid
  let download_title := safe_title ++ "_(" ++ resolution ++ ")"
  let video_output := joinPath (downloadDir home) (download_title ++ ".mp4")
  [YT_DLP_PATH, "-f", vid ++ "+" ++ aid, "-o", video_output, url,
   "--embed-subs", "--sub-lang", "en"]

/-! ## Sanity examples -/

example : sanitize_filename "My:Video" = "My_Video" := by decide

example : matchFormatLine "22   mp4  1280x720 30fps ~12.34MiB some desc" =
    some ⟨"22", "mp4", some "1280x720", some "30fps", some "~12.34MiB", "some desc"⟩ := by
  decide

example : searchPercentG "[download]  42% of ~ 10MiB".data = some ['4', '2'] := by decide

example : searchPercent "[download]  42% of ~ 10MiB".data = some (42 : ℚ) := rfl

/-! ## Helper lemmas -/

theorem roundHalfEven_cases (q : ℚ) :
    roundHalfEven q = ⌊q⌋ ∨ roundHalfEven q = ⌊q⌋ + 1 := by
  unfold roundHalfEven
  split_ifs <;> simp

theorem roundHalfEven_le_of_lt {q : ℚ} {z : ℤ} (h : q < (z : ℚ)) :
    roundHalfEven q ≤ z := by
  have hf : ⌊q⌋ < z := Int.floor_lt.mpr h
  rcases roundHalfEven_cases q with hc | hc <;> rw [hc] <;> omega

theorem format_file_size_zero : format_file_size (PyResult.ok 0) = "0.00 B" := by
  have h0 : (((0 : ℤ) : ℚ)) < 1024 := by norm_num
  have hr : roundHalfEven (0 : ℚ) = 0 := by
    norm_num [roundHalfEven]
  have hp : format_file_size_parts 0 = some (0, "B") := by
    simp [format_file_size_parts, unitNames, ffsLoop, h0, hr]
  simp only [format_file_size, hp]
  decide

theorem ffs_big (n : ℤ) (h : 1024 ^ 5 ≤ n) :
    format_file_size (PyResult.ok n) = "Unknown Size" := by
  have hpos : (0 : ℚ) < 1024 := by norm_num
  have hq : (1024 : ℚ) ^ 5 ≤ (n : ℚ) := by exact_mod_cast h
  have c0 : ¬ ((n : ℚ)) < 1024 := by
    rw [not_lt]
    have : (1024 : ℚ) ≤ 1024 ^ 5 := by norm_num
    linarith
  have c1 : ¬ ((n : ℚ) / 1024) < 1024 := by
    rw [not_lt, le_div_iff₀ hpos]
    have : (1024 : ℚ) * 1024 ≤ 1024 ^ 5 := by norm_num
    linarith
  have c2 : ¬ ((n : ℚ) / 1024 / 1024) < 1024 := by
    rw [not_lt, le_div_iff₀ hpos, le_div_iff₀ hpos]
    have : (1024 : ℚ) * 1024 * 1024 ≤ 1024 ^ 5 := by norm_num
    linarith
  have c3 : ¬ ((n : ℚ) / 1024 / 1024 / 1024) < 1024 := by
    rw [not_lt, le_div_iff₀ hpos, le_div_iff₀ hpos, le_div_iff₀ hpos]
    have : (1024 : ℚ) * 1024 * 1024 * 1024 ≤ 1024 ^ 5 := by norm_num
    linarith
  have c4 : ¬ ((n : ℚ) / 1024 / 1024 / 1024 / 1024) < 1024 := by
    rw [not_lt, le_div_iff₀ hpos, le_div_iff₀ hpos, le_div_iff₀ hpos, le_div_iff₀ hpos]
    have : (1024 : ℚ) * 1024 * 1024 * 1024 * 1024 ≤ 1024 ^ 5 := by norm_num
    linarith
  simp [format_file_size, format_file_size_parts, unitNames, ffsLoop, c0, c1, c2, c3, c4]

/-! ## Claims C1 and C2 -/

/-- C1: the claim says every workflow variant recovers an approximate byte
total from the human-scaled size string by multiplying the numeric part by
the reversed unit factor, defaulting to zero on unparseable input and
never raising.  Only the merge variant does; the video-only and audio-only
variants apply `int` directly to the two-decimal numeric token, which
raises `ValueError` for every known size (and would apply no unit factor
even where it succeeded).  This theorem evaluates both total-size
computations on the size string a fifteen-megabyte file produces, and on
the unknown-size sentinel. -/
theorem c1_total_size_eval :
    video_total_size "15.00 MB" = PyResult.valueError
    ∧ merge_total_size "15.00 MB" = PyResult.ok 15728640
    ∧ video_total_size "Unknown Size" = PyResult.ok 0
    ∧ merge_total_size "Unknown Size" = PyResult.ok 0 := by
  refine ⟨by decide, ?_, rfl, rfl⟩
  have h : merge_total_size "15.00 MB"
      = PyResult.ok (((((15 : ℕ) : ℚ)) + (((0 : ℕ) : ℚ)) / 10 ^ 2) * 1024 * 1024) := rfl
  rw [h]
  simp only [PyResult.ok.injEq]
  norm_num

/-- C2 counterexample: the claim says `format_file_size` maps the input 0
to the sentinel and never returns the string naught-point-naught-naught
bytes; in fact 0 is below 1024 on the first loop iteration, so exactly
that string is returned. -/
theorem c2_counterexample :
    format_file_size (PyResult.ok 0) = "0.00 B" ∧ "0.00 B" ≠ "Unknown Size" := by
  exact ⟨format_file_size_zero, by decide⟩

/-- C2 (amended): an input whose `int` conversion fails yields the
sentinel "Unknown Size" (as does a value of at least 1024 to the fifth,
which exhausts the unit list); the input 0, however, yields "0.00 B". -/
theorem c2_amended :
    format_file_size PyResult.valueError = "Unknown Size"
    ∧ format_file_size (PyResult.ok 0) = "0.00 B"
    ∧ format_file_size (PyResult.ok (1024 ^ 5)) = "Unknown Size" := by
  exact ⟨rfl, format_file_size_zero, ffs_big _ le_rfl⟩

/-! ## Claims C6 and C10: the sanitizer -/

theorem sanitizeChar_alnum {c : Char} (h : pyIsAlnum c = true) : sanitizeChar c = c := by
  unfold sanitizeChar
  rw [if_pos]
  simp [h]

theorem sanitizeChar_keep_pred (c : Char) :
    (pyIsAlnum (sanitizeChar c) || sanitizeChar c == ' ' || sanitizeChar c == '_'
      || sanitizeChar c == '-') = true := by
  unfold sanitizeChar
  by_cases h : (pyIsAlnum c || c == ' ' || c == '_' || c == '-') = true
  · rw [if_pos h]
    exact h
  · rw [if_neg h]
    decide

theorem sanitizeChar_idem (c : Char) : sanitizeChar (sanitizeChar c) = sanitizeChar c := by
  unfold sanitizeChar
  by_cases h : (pyIsAlnum c || c == ' ' || c == '_' || c == '-') = true
  · rw [if_pos h, if_pos h]
  · rw [if_neg h]
    decide

theorem map_sanitizeChar_idem :
    ∀ l : List Char, (l.map sanitizeChar).map sanitizeChar = l.map sanitizeChar := by
  intro l
  induction l with
  | nil => rfl
  | cons c t ih => simp only [List.map_cons, sanitizeChar_idem c, ih]

/-- C6: for every string, the sanitized string contains only alphanumeric
characters, spaces, underscores and hyphens, has the same length as the
input, and sanitizing is idempotent. -/
theorem c6_sanitize_props : ∀ s : String,
    ((sanitize_filename s).data.all
        (fun c => pyIsAlnum c || c == ' ' || c == '_' || c == '-')) = true
    ∧ (sanitize_filename s).length = s.length
    ∧ sanitize_filename (sanitize_filename s) = sanitize_filename s := by
  intro s
  refine ⟨?_, ?_, ?_⟩
  · show ((s.data.map sanitizeChar).all _) = true
    rw [List.all_eq_true]
    intro c hc
    obtain ⟨a, _, rfl⟩ := List.mem_map.mp hc
    exact sanitizeChar_keep_pred a
  · show (s.data.map sanitizeChar).length = s.data.length
    exact List.length_map s.data sanitizeChar
  · show String.mk ((s.data.map sanitizeChar).map sanitizeChar)
        = String.mk (s.data.map sanitizeChar)
    rw [map_sanitizeChar_idem]

/-- C10: the sanitizer passes every character that Python `isalnum`
accepts through unchanged, not only ASCII; a character is replaced by an
underscore exactly when it is neither alphanumeric nor a space,
underscore or hyphen; hence a string of alphanumeric characters (accented
letters and CJK included) is a fixed point of the sanitizer. -/
theorem c10_unicode_alnum :
    (∀ c : Char, pyIsAlnum c = true → sanitizeChar c = c)
    ∧ (∀ c : Char, pyIsAlnum c = false → (c == ' ') = false → (c == '_') = false →
        (c == '-') = false → sanitizeChar c = '_')
    ∧ (∀ s : String, s.data.all pyIsAlnum = true → sanitize_filename s = s) := by
  refine ⟨fun c h => sanitizeChar_alnum h, ?_, ?_⟩
  · intro c h1 h2 h3 h4
    unfold sanitizeChar
    rw [if_neg]
    simp [h1, h2, h3, h4]
  · intro s h
    rw [List.all_eq_true] at h
    obtain ⟨l⟩ := s
    show String.mk (l.map sanitizeChar) = String.mk l
    congr 1
    induction l with
    | nil => rfl
    | cons c t ih =>
      simp only [List.map_cons]
      rw [sanitizeChar_alnum (h c (by simp)), ih]
      intro x hx
      exact h x (by simp [hx])

theorem c10_unicode_alnum_witness :
    pyIsAlnum 'é' = true ∧ sanitizeChar 'é' = 'é'
    ∧ sanitize_filename "café日本" = "café日本" := by
  exact ⟨by decide, c10_unicode_alnum.1 'é' (by decide),
    c10_unicode_alnum.2.2 "café日本" (by decide)⟩

/-! ## Claim C7: rename on exit code zero -/

/-- C7: in the video-only workflow the downloaded file is renamed from
sanitized-title dot mp4 to sanitized-title underscore resolution dot mp4
exactly when the process exit code is zero; on a non-zero exit code no
rename is planned and the failure banner is produced (the partial file is
untouched: the failure branch carries no file operation). -/
theorem c7_video_rename :
    ∀ (home title resolution fid url : String) (code : ℤ),
      ((download_video home title resolution fid url code).rename.isSome ↔ code = 0)
      ∧ (code = 0 →
          (download_video home title resolution fid url code).rename
            = some (joinPath (downloadDir home) (sanitize_filename title ++ ".mp4"),
                joinPath (downloadDir home)
                  (sanitize_filename title ++ "_" ++ resolution ++ ".mp4")))
      ∧ (code ≠ 0 →
          (download_video home title resolution fid url code).rename = none
          ∧ (download_video home title resolution fid url code).message
              = "\n❌ Video download failed.") := by
  intro home title res fid url code
  by_cases h : code = 0 <;> simp [download_video, h]

theorem c7_video_rename_witness :
    (download_video "/home/u" "A: B" "1080p" "137" "u" 0).rename
      = some ("/home/u/Downloads/Youtube Downloads/A_ B.mp4",
              "/home/u/Downloads/Youtube Downloads/A_ B_1080p.mp4")
    ∧ (download_video "/home/u" "A: B" "1080p" "137" "u" 1).rename = none := by
  constructor
  · exact ((c7_video_rename "/home/u" "A: B" "1080p" "137" "u" 0).2.1 rfl).trans (by decide)
  · exact ((c7_video_rename "/home/u" "A: B" "1080p" "137" "u" 1).2.2 (by decide)).1

/-! ## Claim C5: merge-workflow resolution and naming -/

theorem foldl_getD_eq (f : String → Option String) :
    ∀ (l : List String) (a : String),
      l.foldl (fun acc x => (f x).getD acc) a = ((l.filterMap f).getLast?).getD a := by
  intro l
  induction l with
  | nil => intro a; rfl
  | cons x t ih =>
    intro a
    rw [List.foldl_cons]
    cases hf : f x with
    | none => simp only [List.filterMap_cons, hf, Option.getD_none]; exact ih a
    | some b =>
      simp only [List.filterMap_cons, hf, Option.getD_some]
      rw [ih b]
      cases hft : t.filterMap f with
      | nil => rfl
      | cons c u =>
        rw [List.getLast?_cons_cons]
        obtain ⟨v, hv⟩ := Option.isSome_iff_exists.mp
          (List.getLast?_isSome.mpr (List.cons_ne_nil c u))
        rw [hv]
        rfl

/-- C5 counterexample: the claim says the resolution used for naming comes
from the catalog row whose format id equals the chosen video format id.
The code instead tests whether the raw line starts with the id string and
lets the last such line win, so choosing id 13 against a catalog holding
rows 13 and 137 names the file with row 137's resolution, not row 13's. -/
theorem c5_counterexample :
    mergeResolution "13 mp4 640x360 only\n137 mp4 1920x1080 full" "13" = "1920x1080"
    ∧ specRowResolution "13 mp4 640x360 only\n137 mp4 1920x1080 full" "13" = some "640x360"
    ∧ ("1920x1080" : String) ≠ "640x360" := by
  refine ⟨by decide, by decide, by decide⟩

/-- C5 (amended): the resolution used for naming is the resolution token
of the last catalog line that starts with the chosen video-format-id
string (a starts-with test, so rows whose longer ids extend the chosen id
also qualify), the sentinel "UnknownRes" when no such line yields a token;
and the output name, sanitized title followed by the parenthesised
resolution, is the output-path argument of the command built before the
download process is invoked. -/
theorem c5_amended :
    (∀ stdout fid : String,
        mergeResolution stdout fid
          = (((splitLines stdout).filterMap (mergePick fid)).getLast?).getD "UnknownRes")
    ∧ (∀ home url title stdout vid aid : String,
        (download_and_merge_command home url title stdout vid aid)[4]?
          = some (joinPath (downloadDir home)
              (sanitize_filename title ++ "_(" ++ mergeResolution stdout vid ++ ")"
                ++ ".mp4"))) := by
  constructor
  · intro stdout fid
    exact foldl_getD_eq (mergePick fid) (splitLines stdout) "UnknownRes"
  · intro home url title stdout vid aid
    rfl

/-! ## Claim C3: format-listing parsing -/

theorem filterMap_length_eq {α β : Type} (f : α → Option β) :
    ∀ l : List α, (l.filterMap f).length = (l.filter (fun x => (f x).isSome)).length := by
  intro l
  induction l with
  | nil => rfl
  | cons a t ih =>
    cases hf : f a <;>
      simp [List.filterMap_cons, List.filter_cons, hf, ih]

theorem filterMap_map_eq {α β γ : Type} (f : α → Option β) (g : β → γ) (h : α → γ)
    (H : ∀ x y, f x = some y → g y = h x) :
    ∀ l : List α, (l.filterMap f).map g = (l.filter (fun x => (f x).isSome)).map h := by
  intro l
  induction l with
  | nil => rfl
  | cons a t ih =>
    cases hf : f a with
    | none => simp [List.filterMap_cons, List.filter_cons, hf, ih]
    | some b => simp [List.filterMap_cons, List.filter_cons, hf, ih, H a b hf]

theorem matchFormatLine_id (l : String) (r : FormatRecord)
    (h : matchFormatLine l = some r) : r.format_id = leadingIntStr l := by
  unfold matchFormatLine at h
  split at h
  · exact absurd h (by simp)
  · split at h
    · exact absurd h (by simp)
    · split at h
      · exact absurd h (by simp)
      · rw [Option.map_eq_some'] at h
        obtain ⟨g, _, hg⟩ := h
        rw [← hg]
        rfl

/-- C3: over any listing, after discarding the three header lines, the
parse yields exactly one record per pattern-matching data line, in the
original order, each record's format id being the leading integer of its
line; non-matching lines are skipped (the matcher is total, so no line
fails the operation). -/
theorem c3_format_listing :
    ∀ lines : List String,
      (parse_format_lines lines).length
          = ((lines.drop 3).filter (fun l => (matchFormatLine l).isSome)).length
      ∧ (parse_format_lines lines).map FormatRecord.format_id
          = ((lines.drop 3).filter (fun l => (matchFormatLine l).isSome)).map leadingIntStr := by
  intro lines
  exact ⟨filterMap_length_eq matchFormatLine (lines.drop 3),
    filterMap_map_eq matchFormatLine FormatRecord.format_id leadingIntStr
      matchFormatLine_id (lines.drop 3)⟩

/-! ## Claim C4: progress estimation -/

theorem percentVal_nonneg (g : List Char) : 0 ≤ percentVal g := by
  unfold percentVal
  split
  · positivity
  · positivity

theorem searchPercent_nonneg {cs : List Char} {p : ℚ}
    (h : searchPercent cs = some p) : 0 ≤ p := by
  unfold searchPercent at h
  rw [Option.map_eq_some'] at h
  obtain ⟨g, _, hg⟩ := h
  rw [← hg]
  exact percentVal_nonneg g

theorem percentsOf_nonneg {lines : List String} {q : ℚ}
    (h : q ∈ percentsOf lines) : 0 ≤ q := by
  unfold percentsOf at h
  rw [List.mem_filterMap] at h
  obtain ⟨l, _, hl⟩ := h
  exact searchPercent_nonneg hl

theorem download_sum (total : ℕ) :
    ∀ (lines : List String) (d : ℤ),
      (download_with_progress total d lines).sum
        = (match (percentsOf lines).getLast? with
           | some p => pyTrunc (p / 100 * total)
           | none => d) - d := by
  intro lines
  induction lines with
  | nil => intro d; simp [download_with_progress, percentsOf]
  | cons l t ih =>
    intro d
    cases hs : searchPercent l.data with
    | none =>
      have hp : percentsOf (l :: t) = percentsOf t := by
        simp [percentsOf, List.filterMap_cons, hs]
      simp only [download_with_progress, hs, hp]
      exact ih d
    | some p =>
      have hp : percentsOf (l :: t) = p :: percentsOf t := by
        simp [percentsOf, List.filterMap_cons, hs]
      simp only [download_with_progress, hs, hp, List.sum_cons]
      rw [ih (pyTrunc (p / 100 * total))]
      cases hlast : (percentsOf t).getLast? with
      | none =>
        have ht : percentsOf t = [] := List.getLast?_eq_none_iff.mp hlast
        rw [ht]
        simp
      | some q =>
        have ht : percentsOf t ≠ [] := by
          intro hcon
          rw [hcon] at hlast
          exact absurd hlast (by simp)
        obtain ⟨c, u, hcu⟩ := List.exists_cons_of_ne_nil ht
        rw [hcu]
        rw [hcu] at hlast
        rw [List.getLast?_cons_cons, hlast]
        ring

/-- C4 counterexample: the claim says the new downloaded count is the
rounding of percent over one hundred times the total.  The code truncates
instead: at fifty percent of a three-byte total the code's count (and the
single emitted delta) is one, while rounding gives two. -/
theorem c4_counterexample :
    download_with_progress 3 0 ["50%"] = [1]
    ∧ roundHalfEven ((50 : ℚ) / 100 * 3) = 2
    ∧ (1 : ℤ) ≠ 2 := by
  refine ⟨?_, ?_, by decide⟩
  · have h : searchPercent ("50%" : String).data = some (50 : ℚ) := rfl
    simp only [download_with_progress, h]
    have ht : pyTrunc ((50 : ℚ) / 100 * ((3 : ℕ) : ℚ)) = 1 := by
      unfold pyTrunc
      rw [if_neg (by norm_num)]
      norm_num
    rw [ht]
    norm_num
  · have hf : ⌊(50 : ℚ) / 100 * 3⌋ = 1 := by norm_num
    unfold roundHalfEven
    rw [hf]
    norm_num

/-- C4 (amended): on each line with a percent match the estimator sets the
new downloaded count to the truncation (not the rounding) of percent over
one hundred times the total, emits the delta against the previous count
and updates it; hence for an increasing percent sequence bounded by one
hundred the emitted deltas telescope, summing exactly to the truncated
final count, which is within one of the rounded value the claim names. -/
theorem c4_amended :
    (∀ (total : ℕ) (d : ℤ) (line : String) (rest : List String) (p : ℚ),
        searchPercent line.data = some p →
          download_with_progress total d (line :: rest)
            = (pyTrunc (p / 100 * total) - d)
                :: download_with_progress total (pyTrunc (p / 100 * total)) rest)
    ∧ (∀ (total : ℕ) (lines : List String),
        percentsOf lines ≠ [] →
        List.Chain' (· < ·) (percentsOf lines) →
        (∀ q ∈ percentsOf lines, q ≤ 100) →
          (download_with_progress total 0 lines).sum
              = pyTrunc (((percentsOf lines).getLast?).getD 0 / 100 * total)
            ∧ (roundHalfEven (((percentsOf lines).getLast?).getD 0 / 100 * total)
                - (download_with_progress total 0 lines).sum).natAbs ≤ 1) := by
  constructor
  · intro total d line rest p hp
    simp only [download_with_progress, hp]
  · intro total lines hne _ _
    obtain ⟨p, hp⟩ := Option.isSome_iff_exists.mp (List.getLast?_isSome.mpr hne)
    have hmem : p ∈ percentsOf lines := by
      have hx : p ∈ (percentsOf lines).getLast? := by rw [hp]; rfl
      obtain ⟨hh, hpe⟩ := List.mem_getLast?_eq_getLast hx
      rw [hpe]
      exact List.getLast_mem hh
    have hpn : 0 ≤ p := percentsOf_nonneg hmem
    have hx : (0 : ℚ) ≤ p / 100 * total := by positivity
    have htr : pyTrunc (p / 100 * (total : ℚ)) = ⌊p / 100 * (total : ℚ)⌋ := by
      unfold pyTrunc
      rw [if_neg (not_lt.mpr hx)]
    have hsum : (download_with_progress total 0 lines).sum
        = pyTrunc (p / 100 * total) := by
      have h := download_sum total lines 0
      rw [hp] at h
      simpa using h
    rw [hp]
    refine ⟨by simpa using hsum, ?_⟩
    rcases roundHalfEven_cases (p / 100 * (total : ℚ)) with hc | hc <;>
      simp only [Option.getD_some, hsum, htr, hc] <;> omega

theorem c4_amended_witness :
    download_with_progress 10 0 ["50%"]
        = (pyTrunc ((50 : ℚ) / 100 * 10) - 0)
            :: download_with_progress 10 (pyTrunc ((50 : ℚ) / 100 * 10)) []
    ∧ ((download_with_progress 10 0 ["25%", "50%", "100%"]).sum
          = pyTrunc (((percentsOf ["25%", "50%", "100%"]).getLast?).getD 0 / 100 * 10)
        ∧ (roundHalfEven (((percentsOf ["25%", "50%", "100%"]).getLast?).getD 0 / 100 * 10)
            - (download_with_progress 10 0 ["25%", "50%", "100%"]).sum).natAbs ≤ 1) := by
  constructor
  · exact c4_amended.1 10 0 "50%" [] 50 rfl
  · refine c4_amended.2 10 ["25%", "50%", "100%"] ?_ ?_ ?_
    · have h : percentsOf ["25%", "50%", "100%"] = [(25 : ℚ), 50, 100] := rfl
      rw [h]
      simp
    · have h : percentsOf ["25%", "50%", "100%"] = [(25 : ℚ), 50, 100] := rfl
      rw [h]
      refine List.chain'_cons.mpr ⟨by norm_num, List.chain'_cons.mpr ⟨by norm_num, ?_⟩⟩
      exact List.chain'_singleton 100
    · intro q hq
      have h : percentsOf ["25%", "50%", "100%"] = [(25 : ℚ), 50, 100] := rfl
      rw [h] at hq
      rcases List.mem_cons.mp hq with rfl | hq
      · norm_num
      rcases List.mem_cons.mp hq with rfl | hq
      · norm_num
      rcases List.mem_cons.mp hq with rfl | hq
      · norm_num
      · exact absurd hq (List.not_mem_nil q)

/-! ## Claim C8: metadata resolution -/

/-- C8 counterexample: the claim says the operation fails exactly when the
tool exits non-zero or the structured output cannot be parsed.  With exit
code zero and well-parsed output carrying an `upload_date` that is not a
valid compact date, the code neither succeeds nor returns the no-metadata
failure: the unguarded `strptime` call raises. -/
theorem c8_counterexample :
    get_video_info 0 (some ⟨none, none, none, some "bad", none⟩) = InfoResult.raised := by
  decide

/-- C8 (amended): the operation returns no metadata exactly when the tool
exits non-zero or the structured output fails to parse; with exit code
zero and parsed output it raises exactly when a present `upload_date`
fails date parsing; otherwise it succeeds, each missing field of title,
duration, upload date and resolution defaulting to its explicit
sentinel. -/
theorem c8_amended :
    ∀ (rc : ℤ) (st : Option RawInfo),
      (get_video_info rc st = InfoResult.noInfo ↔ (rc ≠ 0 ∨ st = none))
      ∧ (∀ info : RawInfo, rc = 0 → st = some info →
          (get_video_info rc st = InfoResult.raised
            ↔ ∃ s, info.upload_date = some s ∧ pyStrptimeYmd s = none))
      ∧ (∀ info : RawInfo, rc = 0 → st = some info → info.upload_date = none →
          get_video_info rc st = InfoResult.ok
            { title := info.title.getD "Unknown Title"
              duration := info.duration_string.getD "Unknown Duration"
              filesize := format_file_size (info.filesize_approx.getD (PyResult.ok 0))
              upload_date := "Unknown Date"
              resolution := info.resolution.getD "Unknown" })
      ∧ (∀ (info : RawInfo) (s : String) (d : ℕ × ℕ × ℕ), rc = 0 → st = some info →
          info.upload_date = some s → pyStrptimeYmd s = some d →
          get_video_info rc st = InfoResult.ok
            { title := info.title.getD "Unknown Title"
              duration := info.duration_string.getD "Unknown Duration"
              filesize := format_file_size (info.filesize_approx.getD (PyResult.ok 0))
              upload_date := formatYmd d
              resolution := info.resolution.getD "Unknown" }) := by
  intro rc st
  by_cases hrc : rc = 0
  · subst hrc
    cases st with
    | none =>
      refine ⟨by simp [get_video_info], ?_, ?_, ?_⟩
      · intro info _ hsome
        exact absurd hsome (by simp)
      · intro info _ hsome
        exact absurd hsome (by simp)
      · intro info s d _ hsome
        exact absurd hsome (by simp)
    | some info =>
      refine ⟨?_, ?_, ?_, ?_⟩
      · cases hup : info.upload_date with
        | none => simp [get_video_info, hup]
        | some s =>
          cases hps : pyStrptimeYmd s with
          | none => simp [get_video_info, hup, hps]
          | some d => simp [get_video_info, hup, hps]
      · intro info2 _ hsome
        obtain rfl : info = info2 := by injection hsome
        cases hup : info.upload_date with
        | none => simp [get_video_info, hup]
        | some s =>
          cases hps : pyStrptimeYmd s with
          | none =>
            have hv : get_video_info 0 (some info) = InfoResult.raised := by
              simp [get_video_info, hup, hps]
            rw [hv]
            exact ⟨fun _ => ⟨s, rfl, hps⟩, fun _ => rfl⟩
          | some d =>
            have hv : get_video_info 0 (some info) ≠ InfoResult.raised := by
              simp [get_video_info, hup, hps]
            constructor
            · intro hcon
              exact absurd hcon hv
            · rintro ⟨x, hx, hxn⟩
              injection hx with hsx
              rw [← hsx] at hxn
              rw [hps] at hxn
              exact absurd hxn (by simp)
      · intro info2 _ hsome hup
        obtain rfl : info = info2 := by injection hsome
        simp [get_video_info, hup]
      · intro info2 s d _ hsome hup hps
        obtain rfl : info = info2 := by injection hsome
        simp [get_video_info, hup, hps]
  · refine ⟨by simp [get_video_info, hrc], ?_, ?_, ?_⟩
    · intro info h0
      exact absurd h0 hrc
    · intro info h0
      exact absurd h0 hrc
    · intro info s d h0
      exact absurd h0 hrc

theorem c8_amended_witness :
    get_video_info 0 (some ⟨none, none, none, none, none⟩)
      = InfoResult.ok ⟨"Unknown Title", "Unknown Duration", "0.00 B",
          "Unknown Date", "Unknown"⟩ := by
  have h := (c8_amended 0 (some ⟨none, none, none, none, none⟩)).2.2.1
    ⟨none, none, none, none, none⟩ rfl rfl rfl
  rw [h]
  rw [show ((⟨none, none, none, none, none⟩ : RawInfo).filesize_approx.getD
      (PyResult.ok 0)) = PyResult.ok 0 from rfl]
  rw [format_file_size_zero]
  rfl

/-! ## Claim C9: format_file_size unit selection -/

/-- C9 counterexample: the claim says the numeric part of the formatted
size is below 1024 for every input, and that every input gets one of the
five units.  At 1048575 bytes the pre-rounding scaled value is below 1024
but the two-decimal rendering rounds up to 1024.00; and from 1024 to the
fifth upward the loop exhausts the unit list and returns the sentinel
instead of a number with a unit. -/
theorem c9_counterexample :
    format_file_size_parts 1048575 = some (102400, "KB")
    ∧ format_file_size (PyResult.ok 1048575) = "1024.00 KB"
    ∧ format_file_size (PyResult.ok (1024 ^ 5)) = "Unknown Size" := by
  have c0 : ¬ ((1048575 : ℚ)) < 1024 := by norm_num
  have c1 : ((1048575 : ℚ)) / 1024 < 1024 := by norm_num
  have hfl : ⌊((1048575 : ℚ)) / 1024 * 100⌋ = 102399 := by norm_num
  have hrh : roundHalfEven (((1048575 : ℚ)) / 1024 * 100) = 102400 := by
    unfold roundHalfEven
    rw [hfl]
    norm_num
  have hparts : format_file_size_parts 1048575 = some (102400, "KB") := by
    simp [format_file_size_parts, unitNames, ffsLoop, c0, c1, hrh]
  refine ⟨hparts, ?_, ?_⟩
  · simp only [format_file_size, hparts]
    decide
  · exact ffs_big _ (by norm_num)

/-- C9 (amended): for every byte count below 1024 to the fifth, the unit
chosen is the one at the smallest index making the scaled value less than
1024, the pre-rounding scaled value is below 1024, and the rendered
numeric part (in hundredths, after round-half-even) is at most 1024.00 —
it can equal 1024.00, so "less than 1024" holds of the scaled value, not
of the rendered number.  From 1024 to the fifth upward the function
returns the "Unknown Size" sentinel instead. -/
theorem c9_amended :
    (∀ b : ℕ, b < 1024 ^ 5 →
        format_file_size_parts (b : ℤ)
            = some (roundHalfEven ((b : ℚ) / 1024 ^ leastUnitIndex b * 100),
                unitNames.getD (leastUnitIndex b) "")
          ∧ (b : ℚ) / 1024 ^ leastUnitIndex b < 1024
          ∧ roundHalfEven ((b : ℚ) / 1024 ^ leastUnitIndex b * 100) ≤ 102400
          ∧ b < 1024 ^ (leastUnitIndex b + 1)
          ∧ (leastUnitIndex b = 0 ∨ 1024 ^ leastUnitIndex b ≤ b))
    ∧ (∀ b : ℕ, 1024 ^ 5 ≤ b →
        format_file_size (PyResult.ok (b : ℤ)) = "Unknown Size") := by
  constructor
  · intro b hb5
    have hpos : (0 : ℚ) < 1024 := by norm_num
    by_cases h0 : b < 1024
    · have q0 : (b : ℚ) < 1024 := by exact_mod_cast h0
      have hk : leastUnitIndex b = 0 := by unfold leastUnitIndex; rw [if_pos h0]
      have hparts : format_file_size_parts (b : ℤ)
          = some (roundHalfEven ((b : ℚ) * 100), "B") := by
        simp [format_file_size_parts, unitNames, ffsLoop, q0]
      have hdd : (b : ℚ) / 1024 ^ (0 : ℕ) = (b : ℚ) := by norm_num
      rw [hk, hdd]
      refine ⟨by rw [hparts]; rfl, q0, ?_, by simpa using h0, Or.inl rfl⟩
      apply roundHalfEven_le_of_lt
      push_cast
      nlinarith [q0]
    · by_cases h1 : b < 1024 ^ 2
      · have hb1 : (1024 : ℚ) ≤ (b : ℚ) := by exact_mod_cast Nat.le_of_not_lt h0
        have c0 : ¬ ((b : ℚ)) < 1024 := not_lt.mpr hb1
        have q1 : (b : ℚ) < 1024 ^ 2 := by exact_mod_cast h1
        have c1 : (b : ℚ) / 1024 < 1024 := by
          rw [div_lt_iff₀ hpos]
          nlinarith [q1]
        have hk : leastUnitIndex b = 1 := by unfold leastUnitIndex; rw [if_neg h0, if_pos h1]
        have hparts : format_file_size_parts (b : ℤ)
            = some (roundHalfEven ((b : ℚ) / 1024 * 100), "KB") := by
          simp [format_file_size_parts, unitNames, ffsLoop, c0, c1]
        have hdd : (b : ℚ) / 1024 ^ (1 : ℕ) = (b : ℚ) / 1024 := by norm_num
        rw [hk, hdd]
        refine ⟨by rw [hparts]; rfl, c1, ?_, by simpa using h1, Or.inr (by simpa using Nat.le_of_not_lt h0)⟩
        apply roundHalfEven_le_of_lt
        push_cast
        nlinarith [c1]
      · by_cases h2 : b < 1024 ^ 3
        · have hb2 : ((1024 : ℚ)) ^ 2 ≤ (b : ℚ) := by exact_mod_cast Nat.le_of_not_lt h1
          have c0 : ¬ ((b : ℚ)) < 1024 := by
            rw [not_lt]
            nlinarith [hb2]
          have c1 : ¬ ((b : ℚ)) / 1024 < 1024 := by
            rw [not_lt, le_div_iff₀ hpos]
            nlinarith [hb2]
          have q2 : (b : ℚ) < 1024 ^ 3 := by exact_mod_cast h2
          have c2 : (b : ℚ) / 1024 / 1024 < 1024 := by
            rw [div_lt_iff₀ hpos, div_lt_iff₀ hpos]
            nlinarith [q2]
          have hk : leastUnitIndex b = 2 := by unfold leastUnitIndex; rw [if_neg h0, if_neg h1, if_pos h2]
          have hparts : format_file_size_parts (b : ℤ)
              = some (roundHalfEven ((b : ℚ) / 1024 / 1024 * 100), "MB") := by
            simp [format_file_size_parts, unitNames, ffsLoop, c0, c1, c2]
          have hdd : (b : ℚ) / 1024 ^ (2 : ℕ) = (b : ℚ) / 1024 / 1024 := by
            rw [div_div]
            norm_num
          rw [hk, hdd]
          refine ⟨by rw [hparts]; rfl, c2, ?_, by simpa using h2, Or.inr (by simpa using Nat.le_of_not_lt h1)⟩
          apply roundHalfEven_le_of_lt
          push_cast
          nlinarith [c2]
        · by_cases h3 : b < 1024 ^ 4
          · have hb3 : ((1024 : ℚ)) ^ 3 ≤ (b : ℚ) := by exact_mod_cast Nat.le_of_not_lt h2
            have c0 : ¬ ((b : ℚ)) < 1024 := by
              rw [not_lt]
              nlinarith [hb3]
            have c1 : ¬ ((b : ℚ)) / 1024 < 1024 := by
              rw [not_lt, le_div_iff₀ hpos]
              nlinarith [hb3]
            have c2 : ¬ ((b : ℚ)) / 1024 / 1024 < 1024 := by
              rw [not_lt, le_div_iff₀ hpos, le_div_iff₀ hpos]
              nlinarith [hb3]
            have q3 : (b : ℚ) < 1024 ^ 4 := by exact_mod_cast h3
            have c3 : (b : ℚ) / 1024 / 1024 / 1024 < 1024 := by
              rw [div_lt_iff₀ hpos, div_lt_iff₀ hpos, div_lt_iff₀ hpos]
              nlinarith [q3]
            have hk : leastUnitIndex b = 3 := by unfold leastUnitIndex; rw [if_neg h0, if_neg h1, if_neg h2, if_pos h3]
            have hparts : format_file_size_parts (b : ℤ)
                = some (roundHalfEven ((b : ℚ) / 1024 / 1024 / 1024 * 100), "GB") := by
              simp [format_file_size_parts, unitNames, ffsLoop, c0, c1, c2, c3]
            have hdd : (b : ℚ) / 1024 ^ (3 : ℕ) = (b : ℚ) / 1024 / 1024 / 1024 := by
              rw [div_div, div_div]
              norm_num
            rw [hk, hdd]
            refine ⟨by rw [hparts]; rfl, c3, ?_, by simpa using h3, Or.inr (by simpa using Nat.le_of_not_lt h2)⟩
            apply roundHalfEven_le_of_lt
            push_cast
            nlinarith [c3]
          · have hb4 : ((1024 : ℚ)) ^ 4 ≤ (b : ℚ) := by exact_mod_cast Nat.le_of_not_lt h3
            have c0 : ¬ ((b : ℚ)) < 1024 := by
              rw [not_lt]
              nlinarith [hb4]
            have c1 : ¬ ((b : ℚ)) / 1024 < 1024 := by
              rw [not_lt, le_div_iff₀ hpos]
              nlinarith [hb4]
            have c2 : ¬ ((b : ℚ)) / 1024 / 1024 < 1024 := by
              rw [not_lt, le_div_iff₀ hpos, le_div_iff₀ hpos]
              nlinarith [hb4]
            have c3 : ¬ ((b : ℚ)) / 1024 / 1024 / 1024 < 1024 := by
              rw [not_lt, le_div_iff₀ hpos, le_div_iff₀ hpos, le_div_iff₀ hpos]
              nlinarith [hb4]
            have q4 : (b : ℚ) < 1024 ^ 5 := by exact_mod_cast hb5
            have c4 : (b : ℚ) / 1024 / 1024 / 1024 / 1024 < 1024 := by
              rw [div_lt_iff₀ hpos, div_lt_iff₀ hpos, div_lt_iff₀ hpos, div_lt_iff₀ hpos]
              nlinarith [q4]
            have hk : leastUnitIndex b = 4 := by unfold leastUnitIndex; rw [if_neg h0, if_neg h1, if_neg h2, if_neg h3]
            have hparts : format_file_size_parts (b : ℤ)
                = some (roundHalfEven ((b : ℚ) / 1024 / 1024 / 1024 / 1024 * 100), "TB") := by
              simp [format_file_size_parts, unitNames, ffsLoop, c0, c1, c2, c3, c4]
            have hdd : (b : ℚ) / 1024 ^ (4 : ℕ) = (b : ℚ) / 1024 / 1024 / 1024 / 1024 := by
              rw [div_div, div_div, div_div]
              norm_num
            rw [hk, hdd]
            refine ⟨by rw [hparts]; rfl, c4, ?_, by simpa using hb5, Or.inr (by simpa using Nat.le_of_not_lt h3)⟩
            apply roundHalfEven_le_of_lt
            push_cast
            nlinarith [c4]
  · intro b hb
    exact ffs_big _ (by exact_mod_cast hb)

theorem c9_amended_witness :
    (1500 : ℕ) < 1024 ^ 5
    ∧ (format_file_size_parts ((1500 : ℕ) : ℤ)
          = some (roundHalfEven (((1500 : ℕ) : ℚ) / 1024 ^ leastUnitIndex 1500 * 100),
              unitNames.getD (leastUnitIndex 1500) "")
        ∧ ((1500 : ℕ) : ℚ) / 1024 ^ leastUnitIndex 1500 < 1024
        ∧ roundHalfEven (((1500 : ℕ) : ℚ) / 1024 ^ leastUnitIndex 1500 * 100) ≤ 102400
        ∧ (1500 : ℕ) < 1024 ^ (leastUnitIndex 1500 + 1)
        ∧ (leastUnitIndex 1500 = 0 ∨ 1024 ^ leastUnitIndex 1500 ≤ 1500)) := by
  exact ⟨by norm_num, c9_amended.1 1500 (by norm_num)⟩
